import Mathlib

/-!
Verification of the BytePusher VM emulator core (`src/main.js`) against its
natural-language specification.

The JavaScript source is shallowly embedded: memory (a `DataView` over an
`ArrayBuffer`) becomes a structure holding its byte length and a byte
function; the `DataView` accessors fault (JS `RangeError`) outside the
buffer, and the emulator's own bounds checks throw "Address out of bounds"
errors; both kinds are modelled with `Except`.  JavaScript number
arithmetic on 32-bit bitwise operations is modelled exactly: `x >> 8`
applies `ToInt32` and then an arithmetic (sign-extending) shift, which is
floor division by 256 (`Int` division `/` below is `Int.ediv`, floor
division for the positive divisor 256).
-/

namespace BytePusherVM

/-- Error kinds observable from the emulator: the `Address out of bounds`
and `Image is too large` errors thrown by the source, and the `RangeError`
a JS `DataView` accessor throws when the byte offset falls outside the
backing buffer. -/
inductive JsError
  | outOfBounds
  | rangeError
  | imageTooLarge
  deriving DecidableEq

/-- The memory backing store: `new DataView(new ArrayBuffer(0x1000008))`.
`size` is the byte length of the buffer and `byte i` the byte stored at
offset `i` (reads reduce it mod 256, as a `Uint8` cell always holds a value
below 256). -/
structure Mem where
  size : Nat
  byte : Nat → Nat

/-- The initial memory: a fresh zero-filled buffer of 0x1000008 bytes. -/
def mem0 : Mem :=
  { size := 0x1000008, byte := fun _ => 0 }

/-- JS `DataView.getUint8(addr)`: faults with a `RangeError` unless
`0 ≤ addr` and `addr + 1 ≤ size`. -/
def getUint8 (m : Mem) (addr : Int) : Except JsError Nat :=
  if 0 ≤ addr ∧ addr + 1 ≤ (m.size : Int) then .ok (m.byte addr.toNat % 256)
  else .error .rangeError

/-- JS `DataView.setUint8(addr, v)`: faults with a `RangeError` unless
`0 ≤ addr` and `addr + 1 ≤ size`; stores `v` mod 256. -/
def setUint8 (m : Mem) (addr : Int) (v : Nat) : Except JsError Mem :=
  if 0 ≤ addr ∧ addr + 1 ≤ (m.size : Int) then
    .ok { m with byte := fun j => if j = addr.toNat then v % 256 else m.byte j }
  else .error .rangeError

/-- JS `DataView.getUint32(addr)` (big-endian, the `DataView` default used
by the source): faults with a `RangeError` unless the 4-byte window fits. -/
def getUint32 (m : Mem) (addr : Int) : Except JsError Nat :=
  if 0 ≤ addr ∧ addr + 4 ≤ (m.size : Int) then
    .ok (m.byte addr.toNat % 256 * 2 ^ 24 + m.byte (addr.toNat + 1) % 256 * 2 ^ 16 +
         m.byte (addr.toNat + 2) % 256 * 2 ^ 8 + m.byte (addr.toNat + 3) % 256)
  else .error .rangeError

/-- JS `DataView.setUint16(addr, v)` (big-endian): faults with a
`RangeError` unless the 2-byte window fits; the value is converted with
`ToUint16` (mod 2^16, nonnegative) and stored high byte first. -/
def setUint16 (m : Mem) (addr : Int) (v : Int) : Except JsError Mem :=
  if 0 ≤ addr ∧ addr + 2 ≤ (m.size : Int) then
    .ok { m with byte := fun j =>
      if j = addr.toNat then (v % 65536).toNat / 256
      else if j = addr.toNat + 1 then (v % 65536).toNat % 256
      else m.byte j }
  else .error .rangeError

/-- JS `ToInt32`: reduce mod 2^32 and reinterpret as a signed 32-bit
value.  Applied implicitly by every JS bitwise operator, in particular by
`>>`. -/
def toInt32 (n : Nat) : Int :=
  if n % 2 ^ 32 < 2 ^ 31 then ((n % 2 ^ 32 : Nat) : Int)
  else ((n % 2 ^ 32 : Nat) : Int) - 2 ^ 32

/-- `readUint24(addr)` from the source: bounds check against 0xFFFFFF, then
`this.mem.getUint32(addr) >> 8`.  The JS `>>` operator converts its left
operand with `ToInt32` and shifts arithmetically (sign-extending), which is
floor division by 256; `/` on `Int` is `Int.ediv`, floor division for the
positive divisor 256. -/
def readUint24 (m : Mem) (addr : Int) : Except JsError Int :=
  if addr > 0xFFFFFF then .error .outOfBounds
  else (getUint32 m addr).map fun u => toInt32 u / 256

/-- `writeUint16(src, value)` from the source: bounds check against
0xFFFFFF, then `this.mem.setUint16(src, value)`. -/
def writeUint16 (m : Mem) (src value : Int) : Except JsError Mem :=
  if src > 0xFFFFFF then .error .outOfBounds
  else setUint16 m src value

/-- `readByte(addr)` from the source: bounds check against 0xFFFFFF, then
`this.mem.getUint8(addr)`. -/
def readByte (m : Mem) (addr : Int) : Except JsError Nat :=
  if addr > 0xFFFFFF then .error .outOfBounds
  else getUint8 m addr

/-- `writeByte(src, dest)` from the source (the spec calls it `copyByte`):
bounds check both raw addresses against 0xFFFFFF, then
`this.mem.setUint8(this.readUint24(dest), this.mem.getUint8(this.readUint24(src)))`.
JS evaluates the arguments left to right — `readUint24(dest)` first, then
`readUint24(src)` and the `getUint8` read — and `setUint8` validates its
offset last. -/
def writeByte (m : Mem) (src dest : Int) : Except JsError Mem :=
  if src > 0xFFFFFF ∨ dest > 0xFFFFFF then .error .outOfBounds
  else
    Except.bind (readUint24 m dest) fun rd =>
      Except.bind (readUint24 m src) fun rs =>
        Except.bind (getUint8 m rs) fun b =>
          setUint8 m rd b

/-- `setMemory(buffer)` from the source (the spec calls it `loadImage`):
rejects a buffer longer than 0x1000008 bytes, otherwise replaces memory
with `new DataView(buffer.transfer(0x1000008))` — the buffer resized to
exactly 0x1000008 bytes, zero-filling the tail. -/
def setMemory (buffer : List Nat) : Except JsError Mem :=
  if buffer.length > 0x1000008 then .error .imageTooLarge
  else .ok { size := 0x1000008,
             byte := fun i => if h : i < buffer.length then buffer.get ⟨i, h⟩ else 0 }

/-- The body of `cpuLoop`'s `for` loop, recursing on the remaining
iteration count: each iteration runs `this.writeByte(pc, pc + 3)` and then
`pc = this.readUint24(pc + 6)`; a thrown error aborts the loop. -/
def cpuLoopAux (m : Mem) (pc : Int) : Nat → Except JsError Mem
  | 0 => .ok m
  | n + 1 =>
    Except.bind (writeByte m pc (pc + 3)) fun m1 =>
      Except.bind (readUint24 m1 (pc + 6)) fun pc1 =>
        cpuLoopAux m1 pc1 n

/-- `cpuLoop()` from the source: `let pc = this.readUint24(2)` followed by
65536 loop iterations.  The local `pc` is discarded when the loop ends. -/
def cpuLoop (m : Mem) : Except JsError Mem :=
  Except.bind (readUint24 m 2) fun pc => cpuLoopAux m pc 65536

/-- A concrete memory image whose byte at address 0 is 0x80 and whose other
bytes are 0; used to exercise `readUint24` on a top byte with the sign bit
set. -/
def mem80 : Mem :=
  { size := 0x1000008, byte := fun i => if i = 0 then 0x80 else 0 }

/-- Specification-side description of the instruction engine (spec §4.2),
stated with an explicit program counter in the result: each iteration runs
`copyByte(pc, pc + 3)` (the source's `writeByte`) and then fetches the next
pc from `pc + 6`. -/
def engineIter (m : Mem) (pc : Int) : Nat → Except JsError (Mem × Int)
  | 0 => .ok (m, pc)
  | n + 1 =>
    Except.bind (writeByte m pc (pc + 3)) fun m1 =>
      Except.bind (readUint24 m1 (pc + 6)) fun pc1 =>
        engineIter m1 pc1 n

/-- Specification-side single-byte store, following the spec's words
(§4.1): `writeByte(addr, byte)` fails with `OutOfBounds` if
`addr > 0xFFFFFF`, otherwise performs the single-byte access on the
backing store.  The source has no such operation — its `writeByte` is the
two-address copy — so this definition exists only to state the claimed
decomposition. -/
def writeByteSingle (m : Mem) (addr : Int) (b : Nat) : Except JsError Mem :=
  if addr > 0xFFFFFF then .error .outOfBounds
  else setUint8 m addr b

/-- Specification-side decomposition of the copy (spec §8): first read
`b = readByte(readUint24(srcAddr))`, then perform the single-byte store
`writeByte(readUint24(destAddr), b)`. -/
def copyByteSpec (m : Mem) (src dest : Int) : Except JsError Mem :=
  Except.bind (readUint24 m src) fun rs =>
    Except.bind (readByte m rs) fun b =>
      Except.bind (readUint24 m dest) fun rd =>
        writeByteSingle m rd b

/-- One palette-store step: `view.setUint32(idx * 4, v)` lands the 32-bit
big-endian RGBA value `v` in palette entry `idx`; the stored pattern is the
`ToUint32` of the written value, i.e. `v` mod 2^32. -/
def setUint32Entry (p : Nat → Nat) (idx v : Nat) : Nat → Nat :=
  fun j => if j = idx then v % 2 ^ 32 else p j

/-- The successive values of the loop variable in
`for (r = 0; r <= 0xff; r += 0x33)`: six steps from 0x00 to 0xFF. -/
def websafeSteps : List Nat := [0x00, 0x33, 0x66, 0x99, 0xCC, 0xFF]

/-- The RGBA word `r << 24 | g << 16 | b << 8 | 0xff` computed by
`initPalette`.  For `r, g, b < 256` the bit fields do not overlap, and the
JS int32 intermediate followed by `setUint32`'s `ToUint32` stores exactly
this 32-bit pattern. -/
def rgba (r g b : Nat) : Nat :=
  (r <<< 24 ||| g <<< 16 ||| b <<< 8 ||| 0xFF) % 2 ^ 32

/-- The 216 RGBA words produced by the triple `r`/`g`/`b` loop of
`initPalette`, in iteration order (R-major, then G, then B). -/
def cubeColors : List Nat :=
  websafeSteps.flatMap fun r => websafeSteps.flatMap fun g => websafeSteps.map fun b => rgba r g b

/-- Writes a list of 32-bit words to consecutive palette entries starting
at `idx`, mirroring `view.setUint32(i++ * 4, …)` with `i` incrementing once
per write. -/
def writeColors (p : Nat → Nat) (idx : Nat) : List Nat → (Nat → Nat)
  | [] => p
  | v :: vs => writeColors (setUint32Entry p idx v) (idx + 1) vs

/-- The second loop of `initPalette`:
`for (let i = 216; i < 256; i++) { view.setUint32(i++ * 4, 0x000000ff) }`.
The body's `i++` and the `for` update together advance `i` by 2 per
iteration.  `fuel` only bounds the recursion (40 checks more than cover the
run from 216); each step re-tests the source's `i < 256` guard. -/
def blackFillAux (p : Nat → Nat) (i : Nat) : Nat → (Nat → Nat)
  | 0 => p
  | fuel + 1 =>
    if i < 256 then blackFillAux (setUint32Entry p i 0x000000FF) (i + 2) fuel
    else p

/-- `initPalette()` from the source: palette entry `idx → 32-bit RGBA word`
after running the cube loop over a zero-initialized `Uint32Array(256)` and
then the black-fill loop from 216. -/
def initPalette : Nat → Nat :=
  blackFillAux (writeColors (fun _ => 0) 0 cubeColors) 216 40

/-- `keymap` from the source: the 15 host key identifiers and the bit mask
each one sets or clears in the 16-bit keyboard word. -/
def keymap : List (String × Nat) :=
  [("1", 0x2), ("2", 0x4), ("3", 0x8), ("4", 0x10), ("5", 0x20), ("6", 0x40),
   ("7", 0x80), ("8", 0x100), ("9", 0x200), ("a", 0x400), ("b", 0x800),
   ("c", 0x1000), ("d", 0x2000), ("e", 0x4000), ("f", 0x8000)]

/-- A host keyboard event as seen by the two listeners `Keyboard.init`
registers: a keydown or keyup carrying the host key identifier. -/
inductive KeyEvent
  | keydown (key : String)
  | keyup (key : String)

/-- The effect of one keyboard event on `keyState`: a mapped keydown ORs
the key's mask in (`keyState |= key`), a mapped keyup ANDs with the JS
int32 complement (`keyState &= ~key`, the complement taken on 32 bits);
unmapped keys leave the state unchanged. -/
def applyKeyEvent (s : Nat) : KeyEvent → Nat
  | .keydown k =>
    match keymap.lookup k with
    | some mask => s ||| mask
    | none => s
  | .keyup k =>
    match keymap.lookup k with
    | some mask => s &&& (0xFFFFFFFF ^^^ mask)
    | none => s

/-- `keyState` after a sequence of keyboard events starting from the
initial state 0. -/
def applyKeyEvents (evs : List KeyEvent) : Nat :=
  evs.foldl applyKeyEvent 0

/-- The keyboard-state invariant: the word fits in 16 bits and its least
significant bit (mask 0x1) is clear. -/
def KeyInv (s : Nat) : Prop :=
  s < 2 ^ 16 ∧ s &&& 1 = 0

/-- `fps` from the source. -/
def fps : ℚ := 60

/-- `frameDuration = 1000 / fps` from the source.  The scheduler is
modelled over exact rationals; every comparison and remainder appearing in
the claim's concrete timestamp trace is exact for JS doubles as well (the
operands are small integers and `24 - frameDuration`, `33 - frameDuration`
are exact by the Sterbenz property), so the frame decisions below agree
with the double-precision run. -/
def frameDuration : ℚ := 1000 / fps

/-- JS truncation toward zero, as used by the `%` operator. -/
def jsTrunc (q : ℚ) : Int :=
  if 0 ≤ q then ⌊q⌋ else ⌈q⌉

/-- The JS remainder operator `a % b`: `a - b * trunc(a / b)`. -/
def jsRem (a b : ℚ) : ℚ :=
  a - b * (jsTrunc (a / b) : ℚ)

/-- One `loop(time)` callback from the source, reduced to its scheduling
decision: given the stored `lastFrameTime` and the callback timestamp,
return the new `lastFrameTime` and whether the frame body (keyboard write,
`cpuLoop`, video decode) executed.  A frame runs only when
`delta >= frameDuration`, and then
`lastFrameTime = time - (delta % frameDuration)`. -/
def tick (lastFrameTime time : ℚ) : ℚ × Bool :=
  let delta := time - lastFrameTime
  if frameDuration ≤ delta then (time - jsRem delta frameDuration, true)
  else (lastFrameTime, false)

/-- Runs the scheduler over a list of callback timestamps, returning the
final `lastFrameTime` and the per-tick frame-executed flags. -/
def runTicks (lastFrameTime : ℚ) : List ℚ → ℚ × List Bool
  | [] => (lastFrameTime, [])
  | t :: ts =>
    let st := tick lastFrameTime t
    let rest := runTicks st.1 ts
    (rest.1, st.2 :: rest.2)

/-- Modelled from the spec: the audio device update is absent from
`src/main.js` (the frame loop carries only a `TODO: update audio device`
comment; the repository README shows the audio code).  Per spec §4.5 the
audio address is "the 24-bit value at memory 0x000006", read big-endian. -/
def audioStart (m : Mem) : Nat :=
  m.byte 6 % 256 * 2 ^ 16 + m.byte 7 % 256 * 2 ^ 8 + m.byte 8 % 256

/-- Reinterpret a memory byte as a signed 8-bit sample (JS `Int8Array`
view of the sample region). -/
def toInt8 (b : Nat) : Int :=
  if b % 256 < 128 then ((b % 256 : Nat) : Int)
  else ((b % 256 : Nat) : Int) - 256

/-- Modelled from the spec: the sample conversion
`sample_float = sample_i8 / 128.0` (README: `audioBuffer[i] / 128.0`).
Every such quotient is a dyadic rational, so double arithmetic computes it
exactly and ℚ models it faithfully. -/
def sampleToFloat (s : Int) : ℚ :=
  (s : ℚ) / 128

/-- Modelled from the spec: the per-frame audio extraction, absent from
`src/main.js` — "extracts 256 contiguous signed 8-bit samples starting
there and converts each" (spec §4.5). -/
def audioFrame (m : Mem) : List ℚ :=
  (List.range 256).map fun i => sampleToFloat (toInt8 (m.byte (audioStart m + i)))

/-- C1: `readUint24(0)` on a memory whose bytes at 0..2 are `80 00 00`
returns -8388608, not the big-endian value 0x800000 = 8388608 claimed: the
JS `>>` in `getUint32(addr) >> 8` is a sign-extending shift on the
`ToInt32`-converted value, so any top byte ≥ 0x80 yields a negative
result, outside the claimed range [0, 0xFFFFFF]. -/
theorem readUint24_sign_bug :
    readUint24 mem80 0 = .ok (-8388608) ∧
    (-8388608 : Int) ≠ 0x80 * 65536 + 0 * 256 + 0 ∧
    ¬ (0 : Int) ≤ -8388608 := by
  refine ⟨rfl, by decide, by decide⟩

/-- C4: with the byte 0x80 at address 0, `copyByte(0, 0)` (the source's
`writeByte`) faults even though both raw addresses are 0 ≤ 0xFFFFFF: the
resolved source address `readUint24(0) = -8388608` is negative, so the
underlying `getUint8` read throws a `RangeError` — not the `OutOfBounds`
error, and not the claimed fault-freedom. -/
theorem writeByte_in_range_faults :
    writeByte mem80 0 0 = .error .rangeError ∧
    JsError.rangeError ≠ JsError.outOfBounds ∧
    (0 : Int) ≤ 0xFFFFFF := by
  refine ⟨rfl, by decide, by decide⟩

/-- C3: the first 216 palette entries are the web-safe cube (spot-checked
at 0, 1, 42 and 215) and entry 216 is opaque black, but the second
initialization loop advances its counter by 2 per iteration (`i++` both in
the index expression and in the `for` update), so the odd entries 217,
219, …, 255 keep their initial value 0x00000000 — transparent black, not
the claimed opaque black 0x000000FF. -/
theorem initPalette_odd_tail_entries_zero :
    initPalette 0 = 0x000000FF ∧
    initPalette 1 = 0x000033FF ∧
    initPalette 42 = 0x333300FF ∧
    initPalette 215 = 0xFFFFFFFF ∧
    initPalette 216 = 0x000000FF ∧
    initPalette 218 = 0x000000FF ∧
    initPalette 254 = 0x000000FF ∧
    initPalette 217 = 0 ∧
    initPalette 219 = 0 ∧
    initPalette 255 = 0 ∧
    (0 : Nat) ≠ 0x000000FF := by
  set_option maxRecDepth 8000 in decide

/-- Computation rule: binding an `ok` result applies the continuation. -/
theorem exceptBindOk {α β : Type} (a : α) (f : α → Except JsError β) :
    Except.bind (.ok a) f = f a := rfl

/-- Computation rule: binding an error propagates it. -/
theorem exceptBindErr {α β : Type} (e : JsError) (f : α → Except JsError β) :
    Except.bind (.error e) f = .error e := rfl

/-- The source's loop body agrees with the specification-side iteration
with the program counter projected away, for any iteration count. -/
theorem cpuLoopAux_eq_engineIter :
    ∀ (n : Nat) (m : Mem) (pc : Int),
      cpuLoopAux m pc n = (engineIter m pc n).map Prod.fst := by
  intro n
  induction n with
  | zero => intro m pc; rfl
  | succ n ih =>
    intro m pc
    simp only [cpuLoopAux, engineIter]
    rcases hw : writeByte m pc (pc + 3) with e | m1
    · simp only [exceptBindErr]; rfl
    · simp only [exceptBindOk]
      rcases hr : readUint24 m1 (pc + 6) with e | pc1
      · simp only [exceptBindErr]; rfl
      · simp only [exceptBindOk]
        exact ih m1 pc1

/-- C5: one invocation of `cpuLoop` initializes `pc` as `readUint24(2)`,
runs exactly 65536 iterations of the engine step — `copyByte(pc, pc + 3)`
followed by `pc = readUint24(pc + 6)` — and returns only the memory,
discarding the final `pc` instead of writing it back. -/
theorem cpuLoop_is_65536_engine_iterations :
    (∀ m : Mem,
      cpuLoop m = ((readUint24 m 2).bind fun pc0 => engineIter m pc0 65536).map Prod.fst) ∧
    (∀ (m : Mem) (pc : Int), engineIter m pc 0 = .ok (m, pc)) ∧
    (∀ (m : Mem) (pc : Int) (n : Nat),
      engineIter m pc (n + 1) =
        (writeByte m pc (pc + 3)).bind fun m1 =>
          (readUint24 m1 (pc + 6)).bind fun pc1 => engineIter m1 pc1 n) := by
  refine ⟨fun m => ?_, fun m pc => rfl, fun m pc n => rfl⟩
  simp only [cpuLoop]
  rcases hp : readUint24 m 2 with e | pc0
  · simp only [exceptBindErr]; rfl
  · simp only [exceptBindOk]
    exact cpuLoopAux_eq_engineIter 65536 m pc0

/-- Computation rule: mapping over an error propagates it. -/
theorem exceptMapErr {α β : Type} (f : α → β) (e : JsError) :
    Except.map f (.error e : Except JsError α) = .error e := rfl

/-- Computation rule: mapping over an `ok` result applies the function. -/
theorem exceptMapOk {α β : Type} (f : α → β) (a : α) :
    Except.map f (.ok a : Except JsError α) = .ok (f a) := rfl

/-- The `ToInt32` conversion lands in the signed 32-bit range. -/
theorem toInt32_bounds (u : Nat) : -(2 ^ 31) ≤ toInt32 u ∧ toInt32 u < 2 ^ 31 := by
  unfold toInt32
  split <;> omega

/-- A successful `readUint24` yields a value in [-0x800000, 0x7FFFFF]: the
`ToInt32`-then-arithmetic-shift computation divides a signed 32-bit value
by 256. -/
theorem readUint24_ok_bounds (m : Mem) (a v : Int) (h : readUint24 m a = .ok v) :
    -(0x800000) ≤ v ∧ v ≤ 0x7FFFFF := by
  unfold readUint24 at h
  split at h
  · exact Except.noConfusion h
  · rcases hg : getUint32 m a with e | u <;> rw [hg] at h
    · rw [exceptMapErr] at h
      exact Except.noConfusion h
    · rw [exceptMapOk] at h
      injection h with h2
      have hb := toInt32_bounds u
      omega

/-- When the explicit bounds check passes, any error out of `readUint24`
is the `DataView` range fault, never `outOfBounds`. -/
theorem readUint24_error_kind (m : Mem) (a : Int) (ha : ¬ a > 0xFFFFFF) (e : JsError)
    (h : readUint24 m a = .error e) : e = .rangeError := by
  unfold readUint24 at h
  rw [if_neg ha] at h
  rcases hg : getUint32 m a with e2 | u <;> rw [hg] at h
  · rw [exceptMapErr] at h
    injection h with h2
    have he2 : e2 = .rangeError := by
      unfold getUint32 at hg
      split at hg
      · exact Except.noConfusion hg
      · injection hg with h3
        exact h3.symm
    rw [← h2, he2]
  · rw [exceptMapOk] at h
    exact Except.noConfusion h

/-- Any error out of the raw `getUint8` accessor is the `DataView` range
fault. -/
theorem getUint8_error_kind (m : Mem) (a : Int) (e : JsError) (h : getUint8 m a = .error e) :
    e = .rangeError := by
  unfold getUint8 at h
  split at h
  · exact Except.noConfusion h
  · injection h with h2
    exact h2.symm

/-- C6: for raw addresses at most 0xFFFFFF, the source's two-address
`writeByte` (the spec's `copyByte`) is exactly the claimed decomposition —
read the byte at `readUint24(srcAddr)`, then store it with the single-byte
`writeByte(readUint24(destAddr), b)` — producing the same memory state
(and, on a fault, the same error). -/
theorem writeByte_eq_copyByteSpec :
    ∀ (src dest : Nat) (m : Mem), src ≤ 0xFFFFFF → dest ≤ 0xFFFFFF →
      writeByte m src dest = copyByteSpec m src dest := by
  intro src dest m hs hd
  have hsle : ¬ ((src : Int) > 0xFFFFFF) := by omega
  have hdle : ¬ ((dest : Int) > 0xFFFFFF) := by omega
  simp only [writeByte, copyByteSpec]
  rw [if_neg (show ¬ (((src : Nat) : Int) > 0xFFFFFF ∨ ((dest : Nat) : Int) > 0xFFFFFF) by omega)]
  rcases hrd : readUint24 m dest with ed | rd
  · have hed := readUint24_error_kind m dest hdle ed hrd
    subst hed
    simp only [exceptBindErr]
    rcases hrs : readUint24 m src with es | rs
    · have hes := readUint24_error_kind m src hsle es hrs
      subst hes
      simp only [exceptBindErr]
    · simp only [exceptBindOk]
      have hrsb := readUint24_ok_bounds m src rs hrs
      simp only [readByte]
      rw [if_neg (show ¬ rs > 0xFFFFFF by omega)]
      rcases hgb : getUint8 m rs with eb | b
      · have heb := getUint8_error_kind m rs eb hgb
        subst heb
        simp only [exceptBindErr]
      · simp only [exceptBindOk, exceptBindErr]
  · simp only [exceptBindOk]
    have hrdb := readUint24_ok_bounds m dest rd hrd
    rcases hrs : readUint24 m src with es | rs
    · have hes := readUint24_error_kind m src hsle es hrs
      subst hes
      simp only [exceptBindErr]
    · simp only [exceptBindOk]
      have hrsb := readUint24_ok_bounds m src rs hrs
      simp only [readByte]
      rw [if_neg (show ¬ rs > 0xFFFFFF by omega)]
      rcases hgb : getUint8 m rs with eb | b
      · have heb := getUint8_error_kind m rs eb hgb
        subst heb
        simp only [exceptBindErr]
      · simp only [exceptBindOk]
        simp only [writeByteSingle]
        rw [if_neg (show ¬ rd > 0xFFFFFF by omega)]

/-- Witness for C6 at the concrete raw addresses 0 and 1 on the initial
memory. -/
theorem writeByte_eq_copyByteSpec_witness :
    (0 : Nat) ≤ 0xFFFFFF ∧ (1 : Nat) ≤ 0xFFFFFF ∧
      writeByte mem0 0 1 = copyByteSpec mem0 0 1 :=
  ⟨by decide, by decide, writeByte_eq_copyByteSpec 0 1 mem0 (by decide) (by decide)⟩

/-- C7: `setMemory` (the spec's `loadImage`) accepts exactly the buffers of
length at most 0x1000008 — replacing memory by the buffer zero-padded to
that capacity — and rejects longer ones with the image-too-large error; in
particular a buffer of exactly 0x1000008 bytes is accepted and one of
0x1000009 bytes is rejected. -/
theorem setMemory_loadImage_spec :
    (∀ buffer : List Nat, buffer.length ≤ 0x1000008 →
      setMemory buffer =
        .ok (Mem.mk 0x1000008 fun i => if h : i < buffer.length then buffer.get ⟨i, h⟩ else 0)) ∧
    (∀ buffer : List Nat, 0x1000008 < buffer.length →
      setMemory buffer = .error .imageTooLarge) ∧
    (∃ m : Mem, setMemory (List.replicate 0x1000008 0) = .ok m) ∧
    setMemory (List.replicate 0x1000009 0) = .error .imageTooLarge := by
  have hok : ∀ buffer : List Nat, buffer.length ≤ 0x1000008 →
      setMemory buffer =
        .ok (Mem.mk 0x1000008 fun i => if h : i < buffer.length then buffer.get ⟨i, h⟩ else 0) := by
    intro buffer h
    unfold setMemory
    rw [if_neg (by omega)]
  refine ⟨hok, fun buffer h => ?_,
    ⟨_, hok (List.replicate 0x1000008 0) (by rw [List.length_replicate])⟩, ?_⟩
  · unfold setMemory
    rw [if_pos (by omega)]
  · unfold setMemory
    rw [if_pos (by rw [List.length_replicate]; omega)]

/-- Witness for C7: a one-byte image is accepted and padded, and the
0x1000009-byte image is rejected, instantiating both guarded conjuncts. -/
theorem setMemory_loadImage_spec_witness :
    ([(7 : Nat)].length ≤ 0x1000008 ∧
      setMemory [7] =
        .ok (Mem.mk 0x1000008
          fun i => if h : i < [(7 : Nat)].length then [(7 : Nat)].get ⟨i, h⟩ else 0)) ∧
    (0x1000008 < (List.replicate 0x1000009 (0 : Nat)).length ∧
      setMemory (List.replicate 0x1000009 0) = .error .imageTooLarge) :=
  ⟨⟨by decide, setMemory_loadImage_spec.1 [7] (by decide)⟩,
   ⟨by rw [List.length_replicate]; omega,
    setMemory_loadImage_spec.2.1 (List.replicate 0x1000009 0)
      (by rw [List.length_replicate]; omega)⟩⟩

/-- A successful `setUint8` store leaves the buffer length unchanged. -/
theorem setUint8_size (m : Mem) (a : Int) (v : Nat) (m2 : Mem)
    (h : setUint8 m a v = .ok m2) : m2.size = m.size := by
  unfold setUint8 at h
  split at h
  · injection h with h2
    rw [← h2]
  · exact Except.noConfusion h

/-- A successful `setUint16` store leaves the buffer length unchanged. -/
theorem setUint16_size (m : Mem) (a v : Int) (m2 : Mem)
    (h : setUint16 m a v = .ok m2) : m2.size = m.size := by
  unfold setUint16 at h
  split at h
  · injection h with h2
    rw [← h2]
  · exact Except.noConfusion h

/-- A successful `writeByte` copy leaves the buffer length unchanged. -/
theorem writeByte_ok_size (m : Mem) (src dest : Int) (m2 : Mem)
    (h : writeByte m src dest = .ok m2) : m2.size = m.size := by
  unfold writeByte at h
  split at h
  · exact Except.noConfusion h
  · rcases hrd : readUint24 m dest with e | rd <;>
      simp only [hrd, exceptBindErr, exceptBindOk] at h
    · exact Except.noConfusion h
    · rcases hrs : readUint24 m src with e | rs <;>
        simp only [hrs, exceptBindErr, exceptBindOk] at h
      · exact Except.noConfusion h
      · rcases hgb : getUint8 m rs with e | b <;>
          simp only [hgb, exceptBindErr, exceptBindOk] at h
        · exact Except.noConfusion h
        · exact setUint8_size m rd b m2 h

/-- A successful `writeUint16` leaves the buffer length unchanged. -/
theorem writeUint16_ok_size (m : Mem) (src v : Int) (m2 : Mem)
    (h : writeUint16 m src v = .ok m2) : m2.size = m.size := by
  unfold writeUint16 at h
  split at h
  · exact Except.noConfusion h
  · exact setUint16_size m src v m2 h

/-- Any number of engine iterations leaves the buffer length unchanged. -/
theorem cpuLoopAux_size :
    ∀ (n : Nat) (m : Mem) (pc : Int) (m2 : Mem),
      cpuLoopAux m pc n = .ok m2 → m2.size = m.size := by
  intro n
  induction n with
  | zero =>
    intro m pc m2 h
    unfold cpuLoopAux at h
    injection h with h2
    rw [← h2]
  | succ n ih =>
    intro m pc m2 h
    simp only [cpuLoopAux] at h
    rcases hw : writeByte m pc (pc + 3) with e | m1 <;>
      simp only [hw, exceptBindErr, exceptBindOk] at h
    · exact Except.noConfusion h
    · rcases hr : readUint24 m1 (pc + 6) with e | pc1 <;>
        simp only [hr, exceptBindErr, exceptBindOk] at h
      · exact Except.noConfusion h
      · rw [ih m1 pc1 m2 h, writeByte_ok_size m pc (pc + 3) m1 hw]

/-- A successful `cpuLoop` burst leaves the buffer length unchanged. -/
theorem cpuLoop_ok_size (m m2 : Mem) (h : cpuLoop m = .ok m2) : m2.size = m.size := by
  unfold cpuLoop at h
  rcases hp : readUint24 m 2 with e | pc <;>
    simp only [hp, exceptBindErr, exceptBindOk] at h
  · exact Except.noConfusion h
  · exact cpuLoopAux_size 65536 m pc m2 h

/-- C9: the backing store is created with exactly 0x1000008 bytes, every
accepted `setMemory` image yields exactly 0x1000008 bytes again, and the
mutating operations (`writeByte`, `writeUint16`, and the `cpuLoop` burst
built from them) never change the store's length. -/
theorem memory_size_invariant :
    mem0.size = 0x1000008 ∧
    (∀ buffer : List Nat,
      (setMemory buffer).map Mem.size = (setMemory buffer).map fun _ => 0x1000008) ∧
    (∀ (m : Mem) (src dest : Int),
      (writeByte m src dest).map Mem.size = (writeByte m src dest).map fun _ => m.size) ∧
    (∀ (m : Mem) (src v : Int),
      (writeUint16 m src v).map Mem.size = (writeUint16 m src v).map fun _ => m.size) ∧
    (∀ m : Mem, (cpuLoop m).map Mem.size = (cpuLoop m).map fun _ => m.size) := by
  refine ⟨rfl, fun buffer => ?_, fun m src dest => ?_, fun m src v => ?_, fun m => ?_⟩
  · unfold setMemory
    split <;> rfl
  · rcases h : writeByte m src dest with e | m2
    · rfl
    · simp only [exceptMapOk]
      rw [writeByte_ok_size m src dest m2 h]
  · rcases h : writeUint16 m src v with e | m2
    · rfl
    · simp only [exceptMapOk]
      rw [writeUint16_ok_size m src v m2 h]
  · rcases h : cpuLoop m with e | m2
    · rfl
    · simp only [exceptMapOk]
      rw [cpuLoop_ok_size m m2 h]

/-- A value found by association-list lookup is one of the stored values. -/
theorem lookup_mem_map_snd :
    ∀ (l : List (String × Nat)) (k : String) (v : Nat),
      l.lookup k = some v → v ∈ l.map Prod.snd := by
  intro l
  induction l with
  | nil => intro k v h; simp [List.lookup] at h
  | cons p l ih =>
    intro k v h
    obtain ⟨a, b⟩ := p
    rw [List.lookup] at h
    cases hab : (k == a)
    · simp only [hab] at h
      exact List.mem_cons_of_mem _ (ih k v h)
    · simp only [hab] at h
      injection h with h2
      rw [← h2]
      exact List.mem_cons_self _ _

/-- Every mask in the key map fits in 16 bits and has a clear low bit. -/
theorem keymap_values_inv : ∀ v ∈ keymap.map Prod.snd, v < 2 ^ 16 ∧ v &&& 1 = 0 := by
  decide

/-- ORing two words with clear low bit leaves the low bit clear. -/
theorem lor_and_one_eq_zero (a b : Nat) (ha : a &&& 1 = 0) (hb : b &&& 1 = 0) :
    (a ||| b) &&& 1 = 0 := by
  rw [Nat.and_one_is_mod] at *
  rcases Nat.mod_two_eq_zero_or_one (a ||| b) with h | h
  · exact h
  · exfalso
    have t := Nat.testBit_lor a b 0
    rw [Nat.testBit_zero, Nat.testBit_zero, Nat.testBit_zero, h, ha, hb] at t
    simp at t

/-- ANDing a word with clear low bit with anything leaves it clear. -/
theorem land_and_one_eq_zero (a b : Nat) (ha : a &&& 1 = 0) :
    (a &&& b) &&& 1 = 0 := by
  rw [Nat.land_assoc, Nat.land_comm b 1, ← Nat.land_assoc, ha, Nat.zero_and]

/-- One keyboard event preserves the keyboard-state invariant. -/
theorem applyKeyEvent_inv (s : Nat) (e : KeyEvent) (h : KeyInv s) :
    KeyInv (applyKeyEvent s e) := by
  obtain ⟨h1, h2⟩ := h
  cases e with
  | keydown k =>
    simp only [applyKeyEvent]
    rcases hl : keymap.lookup k with _ | mask
    · exact ⟨h1, h2⟩
    · have hv := keymap_values_inv mask (lookup_mem_map_snd keymap k mask hl)
      exact ⟨Nat.or_lt_two_pow h1 hv.1, lor_and_one_eq_zero s mask h2 hv.2⟩
  | keyup k =>
    simp only [applyKeyEvent]
    rcases hl : keymap.lookup k with _ | mask
    · exact ⟨h1, h2⟩
    · exact ⟨Nat.lt_of_le_of_lt Nat.and_le_left h1,
        land_and_one_eq_zero s (0xFFFFFFFF ^^^ mask) h2⟩

/-- Any event sequence preserves the keyboard-state invariant. -/
theorem foldl_applyKeyEvent_inv :
    ∀ (evs : List KeyEvent) (s : Nat), KeyInv s → KeyInv (evs.foldl applyKeyEvent s) := by
  intro evs
  induction evs with
  | nil => intro s h; exact h
  | cons e evs ih => intro s h; exact ih _ (applyKeyEvent_inv s e h)

/-- C10: the key map holds exactly the 15 keys 1-9 and a-f, mapped in
order to the distinct single-bit masks 2^1 … 2^15 (0x2 through 0x8000);
starting from state 0, any press/release sequence keeps the keyboard word
below 2^16 with its least significant bit clear, so the mask-0x1 key bit is
unreachable through this interface. -/
theorem keymap_and_keyState_invariant :
    keymap.map Prod.fst =
      ["1", "2", "3", "4", "5", "6", "7", "8", "9", "a", "b", "c", "d", "e", "f"] ∧
    keymap.map Prod.snd = (List.range 15).map (fun k => 2 ^ (k + 1)) ∧
    (keymap.map Prod.snd).Pairwise (fun a b => a ≠ b) ∧
    (∀ evs : List KeyEvent,
      applyKeyEvents evs < 2 ^ 16 ∧ (applyKeyEvents evs) &&& 1 = 0) := by
  refine ⟨by decide, by decide, by decide,
    fun evs => foldl_applyKeyEvent_inv evs 0 ⟨by decide, by decide⟩⟩

/-- Trace of the scheduler on callback timestamps 0, 8, 16, 24, 33 ms from
`lastFrameTime = 0`: no frame until 24 (16 ms is still short of 1000/60 ≈
16.667 ms), one frame at 24 with `lastFrameTime` advanced to the
phase-preserving 50/3, and none at 33 (delta 49/3 < 50/3). -/
theorem scheduler_trace_aux :
    runTicks 0 [0, 8, 16, 24, 33] = (50 / 3, [false, false, false, true, false]) := by
  have h0 : tick 0 0 = (0, false) := by
    simp only [tick, frameDuration, fps]
    rw [if_neg (by norm_num)]
  have h1 : tick 0 8 = (0, false) := by
    simp only [tick, frameDuration, fps]
    rw [if_neg (by norm_num)]
  have h2 : tick 0 16 = (0, false) := by
    simp only [tick, frameDuration, fps]
    rw [if_neg (by norm_num)]
  have h3 : tick 0 24 = (50 / 3, true) := by
    simp only [tick, frameDuration, fps, jsRem, jsTrunc]
    rw [if_pos (by norm_num)]
    norm_num
  have h4 : tick (50 / 3) 33 = (50 / 3, false) := by
    simp only [tick, frameDuration, fps]
    rw [if_neg (by norm_num)]
  simp only [runTicks, h0, h1, h2, h3, h4]

/-- C2 counterexample: on the claimed timestamp sequence the frame-executed
flags are [false, false, false, true, false] — the claim's pattern, a frame
exactly at the 16 and 33 ms ticks, does not occur: 16 - 0 and 33 - 50/3
both fall short of frameDuration = 1000/60. -/
theorem scheduler_not_frames_at_16_and_33 :
    (runTicks 0 [0, 8, 16, 24, 33]).2 = [false, false, false, true, false] ∧
    (runTicks 0 [0, 8, 16, 24, 33]).2 ≠ [false, false, true, false, true] := by
  rw [scheduler_trace_aux]
  exact ⟨rfl, by decide⟩

/-- C2 amended: fed 0, 8, 16, 24, 33 ms from `lastFrameTime = 0`, a frame
executes exactly at the 24 ms tick and at no other; the stored
`lastFrameTime` afterwards is the phase residue 50/3 ≈ 16.667, which equals
neither 24 nor 33 — it is never reset to the raw timestamp. -/
theorem scheduler_frame_only_at_24 :
    runTicks 0 [0, 8, 16, 24, 33] = (50 / 3, [false, false, false, true, false]) ∧
    (50 / 3 : ℚ) ≠ 24 ∧ (50 / 3 : ℚ) ≠ 33 :=
  ⟨scheduler_trace_aux, by norm_num, by norm_num⟩

/-- C8: the per-frame audio decode (modelled from the spec, the audio
device being absent from `src/main.js`) yields 256 samples, the i-th being
the signed byte at `audioStart + i` divided by 128; sample byte -128
(0x80) maps to -1 exactly and sample byte 127 (0x7F) to
127/128 = 0.9921875. -/
theorem audioFrame_samples_spec :
    (∀ m : Mem, (audioFrame m).length = 256) ∧
    (∀ (m : Mem) (i : Fin 256),
      (audioFrame m)[(i : Nat)]? =
        some (sampleToFloat (toInt8 (m.byte (audioStart m + i))))) ∧
    sampleToFloat (toInt8 0x80) = -1 ∧
    sampleToFloat (toInt8 0x7F) = 127 / 128 ∧
    (127 / 128 : ℚ) = 0.9921875 := by
  refine ⟨fun m => ?_, fun m i => ?_, by norm_num [sampleToFloat, toInt8],
    by norm_num [sampleToFloat, toInt8], by norm_num⟩
  · simp [audioFrame]
  · simp [audioFrame, List.getElem?_map, List.getElem?_range, i.isLt]

end BytePusherVM
